import Mathlib

/-!
Shallow embedding of the status-inference core of `weekly_slack_recon`:

* `logic.py` — the thread status classifier (`infer_status_for_submission`,
  `_manual_status_from_parent_reactions`, `_classify_from_emojis`) and the
  follow-up rule inside `build_candidate_submissions`;
* `status_synthesizer.py` — the deterministic keyword synthesizer
  (`_synthesize_with_keywords`) and the generative wrapper with its
  deterministic fallback (`_synthesize_with_claude`);
* `calendar_client.py` — the sort order of the calendar-event list that
  `search_events` hands to the synthesizer.

Python strings become `String`, dict lookups with possibly-missing keys become
`Option` fields with explicit truthiness helpers (Python treats `None`, `""`
and `0` as falsy), timestamps become `Int` (Slack timestamps and `datetime`
values are linearly ordered; only their order, maxima, and month/day fields
are ever consumed), and exceptions become `Option`/`Except` results.
-/

namespace WeeklySlackRecon

/-! ### Python string primitives used by the embedded code -/

/-- `listStartsWith hay needle`: does `hay` begin with `needle`? -/
def listStartsWith : List Char → List Char → Bool
  | _, [] => true
  | [], _ :: _ => false
  | a :: as, b :: bs => a == b && listStartsWith as bs

/-- Python `needle in hay` on strings (contiguous substring test). -/
def listContainsSub : List Char → List Char → Bool
  | hay, needle =>
    if listStartsWith hay needle then true
    else
      match hay with
      | [] => false
      | _ :: t => listContainsSub t needle

/-- Python `needle in hay` for `String`s. -/
def strContains (hay needle : String) : Bool :=
  listContainsSub hay.data needle.data

/-- Python `s.lower()` (ASCII case folding, which is all the embedded
keyword tables exercise). -/
def pyLower (s : String) : String :=
  String.mk (s.data.map Char.toLower)

/-- Python `s.strip()`: drop leading and trailing whitespace. -/
def pyStrip (s : String) : String :=
  String.mk (((s.data.dropWhile Char.isWhitespace).reverse.dropWhile Char.isWhitespace).reverse)

/-- Python `s.split()` (no separator): split on whitespace runs, dropping
empty pieces. -/
def pySplitWs (s : String) : List String :=
  ((s.data.splitOnP Char.isWhitespace).map String.mk).filter (fun p => p ≠ "")

/-- Python `s[:n]` by code points. -/
def pyTake (s : String) (n : Nat) : String :=
  String.mk (s.data.take n)

/-- `candidate_name.split()[0] if candidate_name else candidate_name`
(status_synthesizer.py line 319).  `none` models the `IndexError` raised when
a non-empty, all-whitespace name makes `split()` return an empty list. -/
def firstNameOf (candidate_name : String) : Option String :=
  if candidate_name = "" then some candidate_name
  else (pySplitWs candidate_name).head?

/-! ### logic.py — data model -/

/-- `StatusCategory` from status_rules.py: exactly the three canonical
status strings. -/
inductive StatusCategory where
  | closed
  | inProcessExplicit
  | inProcessUnclear
deriving DecidableEq, Repr

/-- One Slack reaction dict as the classifier reads it: only `r.get("name")`
is consumed, and Python treats a missing key, `None`, or `""` as falsy. -/
structure Reaction where
  name : Option String
deriving DecidableEq, Repr

/-- `r.get("name")` followed by Python truthiness: `None` and `""` are
filtered out. -/
def Reaction.truthyName (r : Reaction) : Option String :=
  match r.name with
  | some s => if s = "" then none else some s
  | none => none

/-- The fields of `SlackMessage` (slack_client.py) that the classifier reads:
the parsed timestamp (`SlackAPI.parse_ts` is strictly monotone, so we embed
the parsed value directly), the text, and the reaction list. -/
structure SlackMessage where
  ts : Int
  text : String
  reactions : List Reaction
deriving DecidableEq, Repr

/-- The `Config` fields consumed by the embedded logic.py code paths. -/
structure Config where
  include_confused_close : Bool
  unclear_followup_days : Int
  inactivity_days : Int
deriving Repr

/-! ### logic.py — classifier -/

/-- The authoritative CLOSED tag test: `name in {"no_entry", "no_entry_sign"}`. -/
def isClosedTagName (n : String) : Bool :=
  n == "no_entry" || n == "no_entry_sign"

/-- `_manual_status_from_parent_reactions` (logic.py lines 156-185):
returns `(status, reason, is_hard_decline)` from the parent's reactions.
The first `no_entry`/`no_entry_sign` name wins; otherwise the first
`white_check_mark`; otherwise nothing. -/
def manualStatusFromParentReactions (_cfg : Config) (reactions : List Reaction) :
    Option StatusCategory × Option String × Bool :=
  let names := reactions.filterMap Reaction.truthyName
  match names.find? isClosedTagName with
  | some name => (some StatusCategory.closed, some (":" ++ name ++ ":"), true)
  | none =>
    match names.find? (fun n => n == "white_check_mark") with
    | some name => (some StatusCategory.inProcessExplicit, some (":" ++ name ++ ":"), false)
    | none => (none, none, false)

/-- `_classify_from_emojis` (logic.py lines 126-146): scan the reactions in
order, skip falsy names, and return IN_PROCESS_EXPLICIT at the first
`white_check_mark`; nothing else matches. -/
def classifyFromEmojis (include_confused_close : Bool) :
    List Reaction → Option (StatusCategory × String)
  | [] => none
  | r :: rest =>
    match r.truthyName with
    | none => classifyFromEmojis include_confused_close rest
    | some name =>
      if name == "white_check_mark" then
        some (StatusCategory.inProcessExplicit, ":" ++ name ++ ":")
      else classifyFromEmojis include_confused_close rest

/-- One entry of the classifier's `events` list: `(time, reactions, text)`. -/
abbrev ClassifierEvent := Int × List Reaction × String

/-- The body of the classifier's event sweep (logic.py lines 248-259): only
`white_check_mark` can upgrade a non-CLOSED running status. -/
def sweepStep (include_confused_close : Bool)
    (st : StatusCategory × Option String) (ev : ClassifierEvent) :
    StatusCategory × Option String :=
  let emoji_result := classifyFromEmojis include_confused_close ev.2.1
  if st.1 ≠ StatusCategory.closed then
    match emoji_result with
    | some er =>
      if er.1 = StatusCategory.inProcessExplicit then (er.1, some er.2) else st
    | none => st
  else st

/-- `infer_status_for_submission` (logic.py lines 188-261).  Returns
`(status, status_reason, last_activity_time, has_no_parent_reactions)`.
Replies at or before the submission time are skipped; the event list is the
parent followed by the kept replies, stably sorted by time
(`events.sort(key=lambda x: x[0])` is modelled by `List.insertionSort`,
which is also stable). -/
def inferStatusForSubmission (cfg : Config) (submission_msg : SlackMessage)
    (thread_messages : List SlackMessage) :
    StatusCategory × Option String × Int × Bool :=
  let submission_time := submission_msg.ts
  let parent_reactions := submission_msg.reactions
  let has_no_parent_reactions : Bool := parent_reactions.length == 0
  let manual := manualStatusFromParentReactions cfg parent_reactions
  let manual_status := manual.1
  let manual_reason := manual.2.1
  let is_hard_decline := manual.2.2
  if manual_status = some StatusCategory.closed ∧ is_hard_decline = true then
    (StatusCategory.closed, manual_reason, submission_time, has_no_parent_reactions)
  else
    let kept := thread_messages.filter (fun msg => decide (submission_time < msg.ts))
    let last_activity_time := kept.foldl (fun acc msg => max acc msg.ts) submission_time
    let events0 : List ClassifierEvent :=
      (submission_time, parent_reactions, submission_msg.text) ::
        kept.map (fun msg => (msg.ts, msg.reactions, msg.text))
    let events := List.insertionSort (fun a b => a.1 ≤ b.1) events0
    let init : StatusCategory × Option String :=
      match manual_status, is_hard_decline with
      | some s, false => (s, manual_reason)
      | _, _ => (StatusCategory.inProcessUnclear, none)
    let final := events.foldl (sweepStep cfg.include_confused_close) init
    (final.1, final.2, last_activity_time, has_no_parent_reactions)

/-- The follow-up rule from `build_candidate_submissions`
(logic.py lines 340-344). -/
def needsFollowup (cfg : Config) (has_no_parent_reactions : Bool)
    (status : StatusCategory) (days_since_submission inactivity_days : Int) : Bool :=
  has_no_parent_reactions ||
    (status == StatusCategory.inProcessUnclear &&
      decide (days_since_submission ≥ cfg.unclear_followup_days) &&
      decide (inactivity_days ≥ cfg.inactivity_days))

/-! ### status_synthesizer.py — data model -/

/-- The parts of a Python `datetime` the synthesizer consumes: a linearly
ordered instant (`ts`, used for comparisons and `timestamp()`) plus the
`month` and `day` fields used by `_format_event_date`. -/
structure PyDateTime where
  ts : Int
  month : Nat
  day : Nat
deriving DecidableEq, Repr

/-- `CalendarEvent` (calendar_client.py). -/
structure CalendarEvent where
  event_id : String
  summary : String
  start_time : PyDateTime
  end_time : PyDateTime
  is_upcoming : Bool
deriving DecidableEq, Repr

/-- `EmailSignal` (gmail_client.py). -/
structure EmailSignal where
  message_id : String
  subject : String
  sender : String
  date : PyDateTime
  snippet : String
  signal_type : String
deriving DecidableEq, Repr

/-- Signal type labels (gmail_client.py lines 24-27). -/
def SIGNAL_ADVANCEMENT : String := "advancement"

def SIGNAL_SCHEDULING : String := "scheduling"

def SIGNAL_REJECTION : String := "rejection"

/-- Confidence levels (status_synthesizer.py lines 38-40). -/
def CONFIDENCE_HIGH : String := "high"

def CONFIDENCE_MEDIUM : String := "medium"

def CONFIDENCE_LOW : String := "low"

/-- Source labels (status_synthesizer.py lines 43-47). -/
def SOURCE_CALENDAR : String := "calendar"

def SOURCE_GMAIL : String := "gmail"

def SOURCE_SLACK : String := "slack"

def SOURCE_ASHBY : String := "ashby"

def SOURCE_NONE : String := "none"

/-- One Slack thread message dict as the synthesizer reads it: only the
`"text"`, `"is_parent"` and `"timestamp"` keys are consumed, each through
`.get` with a default, so each field is an `Option`. -/
structure SlackThreadMsg where
  text : Option String
  is_parent : Option Bool
  timestamp : Option String
deriving DecidableEq, Repr

/-- `m.get("text", "")`. -/
def SlackThreadMsg.getText (m : SlackThreadMsg) : String := m.text.getD ""

/-- `m.get("is_parent", False)`. -/
def SlackThreadMsg.getIsParent (m : SlackThreadMsg) : Bool := m.is_parent.getD false

/-- `m.get("timestamp", "")`. -/
def SlackThreadMsg.getTimestamp (m : SlackThreadMsg) : String := m.timestamp.getD ""

/-- The Ashby record keys the keyword synthesizer reads (each via `.get`,
so possibly absent). -/
structure AshbyRecord where
  pipeline_stage : Option String
  currentStage : Option String
  days_in_stage : Option Int
  daysInStage : Option Int
deriving DecidableEq, Repr

/-- Python `x or y` chaining for optional strings: `None` and `""` fall
through. -/
def truthyStr : Option String → Option String
  | some s => if s = "" then none else some s
  | none => none

/-- Python `x or y` chaining for optional ints: `None` and `0` fall through. -/
def truthyInt : Option Int → Option Int
  | some i => if i = 0 then none else some i
  | none => none

/-- `StatusSynthesis` (status_synthesizer.py lines 103-111). -/
structure StatusSynthesis where
  candidate_name : String
  status_source : String
  one_liner : String
  confidence : String
  flag_for_review : Bool
  supporting_context : String
deriving DecidableEq, Repr

/-! ### status_synthesizer.py — keyword fallback -/

/-- `_SOFT_PASS_KEYWORDS` (status_synthesizer.py lines 50-56). -/
def SOFT_PASS_KEYWORDS : List String :=
  ["comp mismatch", "compensation mismatch", "salary mismatch",
   "over budget", "overqualified", "underqualified",
   "not the right time", "not a priority", "keeping warm",
   "table this", "hold off", "put a pin",
   "concerned about", "hesitant", "on the fence"]

/-- `_contains_soft_pass` (status_synthesizer.py lines 294-296). -/
def containsSoftPass (texts : List String) : Bool :=
  let combined := pyLower (String.intercalate " " texts)
  SOFT_PASS_KEYWORDS.any (fun kw => strContains combined kw)

/-- `_format_event_date` (status_synthesizer.py lines 299-300):
`f"{dt.month}/{dt.day}"`. -/
def formatEventDate (dt : PyDateTime) : String :=
  toString dt.month ++ "/" ++ toString dt.day

/-- `_extract_stage_from_event` (status_synthesizer.py lines 303-308). -/
def extractStageFromEvent (summary : String) : String :=
  let summary_lower := pyLower summary
  match ["onsite", "technical", "tech screen", "coding", "loop", "final",
         "intro", "phone"].find? (fun stage => strContains summary_lower stage) with
  | some stage => stage
  | none => "interview"

/-- The email filter of cascade branch 2 (status_synthesizer.py line 344):
`s.signal_type in (SIGNAL_ADVANCEMENT, SIGNAL_SCHEDULING, SIGNAL_REJECTION)`. -/
def emailActionable (s : EmailSignal) : Bool :=
  s.signal_type == SIGNAL_ADVANCEMENT || s.signal_type == SIGNAL_SCHEDULING ||
    s.signal_type == SIGNAL_REJECTION

/-- The reply filter of cascade branch 3 (status_synthesizer.py line 381):
`not m.get("is_parent", False) and m.get("text", "").strip()`. -/
def isKeptReply (m : SlackThreadMsg) : Bool :=
  !m.getIsParent && !(pyStrip m.getText == "")

/-- The `date_str` computation of branch 3 (status_synthesizer.py lines
388-395): empty when the timestamp is falsy or `datetime.fromisoformat`
raises (modelled by the `fromiso` parameter returning `none`). -/
def dateStrOfReply (fromiso : String → Option PyDateTime) (reply_date : String) : String :=
  if reply_date = "" then ""
  else
    match fromiso reply_date with
    | some dt => " as of " ++ formatEventDate dt
    | none => ""

/-- The one-liner selection of branch 3 (status_synthesizer.py lines
397-405), over the already lowercased combined thread text. -/
def chatOneLiner (first_name combined date_str : String) : String :=
  if ["coding challenge", "hackerrank", "take-home", "homework"].any
      (fun kw => strContains combined kw) then
    "coding challenge sent" ++ date_str ++ " — any update from " ++ first_name ++ "?"
  else if ["tech screen", "technical screen", "phone screen"].any
      (fun kw => strContains combined kw) then
    "phone/tech screen completed" ++ date_str ++ " — any feedback?"
  else if ["onsite", "loop", "final round"].any (fun kw => strContains combined kw) then
    "onsite/loop scheduled" ++ date_str ++ " — any news?"
  else
    "last activity" ++ date_str ++ " — any update on where things stand?"

/-- `_synthesize_with_keywords` (status_synthesizer.py lines 311-439).
`fromiso` models `datetime.fromisoformat` (`none` = raises).  The result is
`none` exactly when the function would raise, which happens only for the
`first_name` computation on an all-whitespace candidate name (line 319). -/
def synthesizeWithKeywords (fromiso : String → Option PyDateTime)
    (candidate_name : String) (ashby_record : Option AshbyRecord)
    (slack_thread_messages : List SlackThreadMsg)
    (email_signals : List EmailSignal)
    (calendar_events : List CalendarEvent) : Option StatusSynthesis :=
  match firstNameOf candidate_name with
  | none => none
  | some first_name =>
    -- 1. Google Calendar
    match calendar_events with
    | event :: _ =>
      let stage := extractStageFromEvent event.summary
      let date_str := formatEventDate event.start_time
      let one_liner :=
        if event.is_upcoming then
          stage ++ " is set for " ++ date_str ++ " — excited to see how it goes!"
        else
          "had the " ++ stage ++ " on " ++ date_str ++ " — any feedback on how it went?"
      let all_text := email_signals.map EmailSignal.snippet ++
        slack_thread_messages.map SlackThreadMsg.getText
      let flag := containsSoftPass all_text
      some { candidate_name := candidate_name, status_source := SOURCE_CALENDAR,
             one_liner := one_liner, confidence := CONFIDENCE_HIGH,
             flag_for_review := flag, supporting_context := event.summary }
    | [] =>
      -- 2. Gmail
      match email_signals.filter emailActionable with
      | top :: _ =>
        let all_text := email_signals.map EmailSignal.snippet ++
          slack_thread_messages.map SlackThreadMsg.getText
        let flag := containsSoftPass all_text
        if top.signal_type == SIGNAL_REJECTION then
          some { candidate_name := candidate_name, status_source := SOURCE_GMAIL,
                 one_liner := "looks like there may have been a pass — wanted to confirm?",
                 confidence := CONFIDENCE_MEDIUM, flag_for_review := true,
                 supporting_context :=
                   "Email: " ++ top.subject ++ " (" ++ formatEventDate top.date ++ ")" }
        else if top.signal_type == SIGNAL_SCHEDULING then
          some { candidate_name := candidate_name, status_source := SOURCE_GMAIL,
                 one_liner := "scheduling in progress — any update on next steps?",
                 confidence := CONFIDENCE_MEDIUM, flag_for_review := flag,
                 supporting_context :=
                   "Email: " ++ top.subject ++ " (" ++ formatEventDate top.date ++ ")" }
        else
          let date_str := formatEventDate top.date
          some { candidate_name := candidate_name, status_source := SOURCE_GMAIL,
                 one_liner := "advanced to the next stage as of " ++ date_str ++
                   " — any update on where things stand?",
                 confidence := CONFIDENCE_MEDIUM, flag_for_review := flag,
                 supporting_context := "Email: " ++ top.subject ++ " (" ++ date_str ++ ")" }
      | [] =>
        -- 3. Slack thread
        let replies := slack_thread_messages.filter isKeptReply
        let all_text := slack_thread_messages.map SlackThreadMsg.getText
        let flag := containsSoftPass all_text
        match replies.getLast? with
        | some latest_reply =>
          let reply_text := latest_reply.getText
          let reply_date := latest_reply.getTimestamp
          let date_str := dateStrOfReply fromiso reply_date
          let combined := pyLower (String.intercalate " " all_text)
          let one_liner := chatOneLiner first_name combined date_str
          some { candidate_name := candidate_name, status_source := SOURCE_SLACK,
                 one_liner := one_liner, confidence := CONFIDENCE_MEDIUM,
                 flag_for_review := flag,
                 supporting_context := if reply_text = "" then "" else pyTake reply_text 200 }
        | none =>
          -- 4. Ashby
          let viaAshby : Option StatusSynthesis :=
            match ashby_record with
            | some record =>
              let stage := (truthyStr record.pipeline_stage).getD
                ((truthyStr record.currentStage).getD "")
              let days := (truthyInt record.days_in_stage).getD
                ((truthyInt record.daysInStage).getD 0)
              if stage ≠ "" then
                some { candidate_name := candidate_name, status_source := SOURCE_ASHBY,
                       one_liner := "any update on where things stand?",
                       confidence := CONFIDENCE_LOW, flag_for_review := false,
                       supporting_context :=
                         "Ashby stage: " ++ stage ++ " (" ++ toString days ++ " days)" }
              else none
            | none => none
          match viaAshby with
          | some s => some s
          | none =>
            -- 5. No signal
            some { candidate_name := candidate_name, status_source := SOURCE_NONE,
                   one_liner := "any update on where things stand here?",
                   confidence := CONFIDENCE_LOW, flag_for_review := false,
                   supporting_context := "No recent signal from any source." }

/-! ### calendar_client.py — the order of the event list -/

/-- The sort key of `search_events` (calendar_client.py line 113):
`(not e.is_upcoming, e.start_time if e.is_upcoming else -e.start_time.timestamp())`.
`False < True`, and `timestamp()` is strictly monotone, so the key is a pair
of integers compared lexicographically. -/
def eventSortKey (e : CalendarEvent) : Int × Int :=
  (if e.is_upcoming then 0 else 1,
   if e.is_upcoming then e.start_time.ts else -e.start_time.ts)

/-- Lexicographic comparison of event sort keys (Python compares key tuples
lexicographically). -/
def eventKeyLe (a b : CalendarEvent) : Prop :=
  (eventSortKey a).1 < (eventSortKey b).1 ∨
    ((eventSortKey a).1 = (eventSortKey b).1 ∧ (eventSortKey a).2 ≤ (eventSortKey b).2)

instance : DecidableRel eventKeyLe := fun a b => by
  unfold eventKeyLe; infer_instance

instance : IsTotal CalendarEvent eventKeyLe :=
  ⟨fun a b => by unfold eventKeyLe; omega⟩

instance : IsTrans CalendarEvent eventKeyLe :=
  ⟨fun a b c hab hbc => by unfold eventKeyLe at *; omega⟩

/-- `events.sort(key=...)` in `search_events`: a stable sort by
`eventSortKey`, modelled by Mathlib's stable `insertionSort`. -/
def sortCalendarEvents (events : List CalendarEvent) : List CalendarEvent :=
  List.insertionSort eventKeyLe events

/-! ### status_synthesizer.py — generative wrapper and fallback -/

/-- The code-fence stripping applied to the backend's raw reply
(status_synthesizer.py lines 263-269), including the leading `.strip()`. -/
def stripFences (text : String) : String :=
  let raw := pyStrip text
  if listStartsWith raw.data "```".data then
    let lines := raw.data.splitOn '\n'
    let kept := lines.filter (fun l => !listStartsWith (pyStrip (String.mk l)).data "```".data)
    pyStrip (String.intercalate "\n" (kept.map String.mk))
  else raw

/-- The four-plus-one named fields the wrapper reads from the parsed JSON
object, each through `.get` with a default. -/
structure ParsedSynthesis where
  status_source : Option String
  one_liner : Option String
  confidence : Option String
  flag_for_review : Option Bool
  supporting_context : Option String
deriving DecidableEq, Repr

/-- `_synthesize_with_claude` (status_synthesizer.py lines 171-289), with the
I/O boundary made explicit: `backendResponse` is the text of the reasoning
backend's reply (`.error` = the API call raised), and `parseJson` models
`json.loads` on the fence-stripped text (`none` = raises).  Any failure falls
back to `_synthesize_with_keywords` on the same five evidence inputs. -/
def synthesizeWithClaude (fromiso : String → Option PyDateTime)
    (backendResponse : Except String String)
    (parseJson : String → Option ParsedSynthesis)
    (candidate_name : String) (ashby_record : Option AshbyRecord)
    (slack_thread_messages : List SlackThreadMsg)
    (email_signals : List EmailSignal)
    (calendar_events : List CalendarEvent) : Option StatusSynthesis :=
  match backendResponse with
  | Except.error _ =>
    synthesizeWithKeywords fromiso candidate_name ashby_record slack_thread_messages
      email_signals calendar_events
  | Except.ok text =>
    let raw := stripFences text
    match parseJson raw with
    | none =>
      synthesizeWithKeywords fromiso candidate_name ashby_record slack_thread_messages
        email_signals calendar_events
    | some parsed =>
      some { candidate_name := candidate_name,
             status_source := parsed.status_source.getD SOURCE_NONE,
             one_liner := parsed.one_liner.getD "any update on where things stand?",
             confidence := parsed.confidence.getD CONFIDENCE_LOW,
             flag_for_review := parsed.flag_for_review.getD false,
             supporting_context := parsed.supporting_context.getD "" }

/-- `synthesize_candidate_status` (status_synthesizer.py lines 114-166):
with a truthy API key the generative path runs (with its fallback), otherwise
the keyword fallback runs directly. -/
def synthesizeCandidateStatus (fromiso : String → Option PyDateTime)
    (backendResponse : Except String String)
    (parseJson : String → Option ParsedSynthesis)
    (anthropic_api_key : Option String)
    (candidate_name : String) (ashby_record : Option AshbyRecord)
    (slack_thread_messages : List SlackThreadMsg)
    (email_signals : List EmailSignal)
    (calendar_events : List CalendarEvent) : Option StatusSynthesis :=
  match truthyStr anthropic_api_key with
  | some _ =>
    synthesizeWithClaude fromiso backendResponse parseJson candidate_name ashby_record
      slack_thread_messages email_signals calendar_events
  | none =>
    synthesizeWithKeywords fromiso candidate_name ashby_record slack_thread_messages
      email_signals calendar_events

/-! ### Helper lemmas -/

/-- Branch 3's `date_str` is empty when the timestamp is falsy or unparseable. -/
theorem dateStrOfReply_eq_empty (fromiso : String → Option PyDateTime) (reply_date : String)
    (h : reply_date = "" ∨ fromiso reply_date = none) :
    dateStrOfReply fromiso reply_date = "" := by
  rcases h with h | h
  · simp [dateStrOfReply, h]
  · unfold dateStrOfReply
    split
    · rfl
    · rw [h]

/-- The keyword synthesizer returns a value whenever the `first_name`
computation does not raise. -/
theorem keywords_returns_some (fromiso : String → Option PyDateTime)
    (n : String) (a : Option AshbyRecord) (sl : List SlackThreadMsg)
    (em : List EmailSignal) (cal : List CalendarEvent) (fn : String)
    (hn : firstNameOf n = some fn) :
    ∃ s, synthesizeWithKeywords fromiso n a sl em cal = some s := by
  cases hv : synthesizeWithKeywords fromiso n a sl em cal with
  | some s => exact ⟨s, rfl⟩
  | none =>
    exfalso
    unfold synthesizeWithKeywords at hv
    rw [hn] at hv
    repeat' first
      | exact Option.noConfusion hv
      | split at hv
      | simp only [] at hv
    all_goals simp_all

/-! ### Claims -/

/-- C5: `needs_followup` is true iff the parent has zero reactions, or the
status is IN_PROCESS_UNCLEAR and both day-count thresholds are met
simultaneously. -/
theorem c5_needs_followup_iff (cfg : Config) (has_no_parent_reactions : Bool)
    (status : StatusCategory) (days_since_submission inactivity_days : Int) :
    needsFollowup cfg has_no_parent_reactions status days_since_submission inactivity_days
      = true ↔
    has_no_parent_reactions = true ∨
      (status = StatusCategory.inProcessUnclear ∧
        days_since_submission ≥ cfg.unclear_followup_days ∧
        inactivity_days ≥ cfg.inactivity_days) := by
  simp [needsFollowup, Bool.or_eq_true, Bool.and_eq_true, decide_eq_true_iff, beq_iff_eq,
    and_assoc]

/-- C6 counterexample: with zero parent reactions, `needs_followup` is true
even though days-since-last-activity (0) is below the inactivity threshold
(5) — the claim's "for every input ... returns false" fails. -/
theorem c6_counterexample :
    (0 : Int) < (⟨false, 7, 5⟩ : Config).inactivity_days ∧
    needsFollowup ⟨false, 7, 5⟩ true StatusCategory.inProcessUnclear 1000 0 = true := by
  decide

/-- C6 (amended): when the parent has at least one reaction
(`has_no_parent_reactions = false`), `needs_followup` is false whenever
days-since-last-activity is below the inactivity threshold, however large
days-since-submission is and whatever the status. -/
theorem c6_amended_recent_activity_no_followup (cfg : Config)
    (has_no_parent_reactions : Bool) (status : StatusCategory)
    (days_since_submission inactivity_days : Int)
    (hr : has_no_parent_reactions = false)
    (hi : inactivity_days < cfg.inactivity_days) :
    needsFollowup cfg has_no_parent_reactions status days_since_submission inactivity_days
      = false := by
  subst hr
  have hd : decide (inactivity_days ≥ cfg.inactivity_days) = false := by
    simp only [decide_eq_false_iff_not]
    omega
  simp [needsFollowup, hd]

/-- C6 witness: a concrete instance of the amended rule. -/
theorem c6_amended_witness :
    needsFollowup ⟨false, 7, 5⟩ false StatusCategory.inProcessUnclear 1000 0 = false :=
  c6_amended_recent_activity_no_followup ⟨false, 7, 5⟩ false
    StatusCategory.inProcessUnclear 1000 0 rfl (by decide)

/-- C1: a CLOSED tag (`no_entry`/`no_entry_sign`) among the parent's
reactions makes `classify` return
`(CLOSED, that tag, parent timestamp, parent-reactions-empty)` regardless of
the replies. -/
theorem c1_closed_parent_is_terminal (cfg : Config) (sub : SlackMessage)
    (replies : List SlackMessage) (tag : String)
    (h : (sub.reactions.filterMap Reaction.truthyName).find? isClosedTagName = some tag) :
    inferStatusForSubmission cfg sub replies =
      (StatusCategory.closed, some (":" ++ tag ++ ":"), sub.ts,
        sub.reactions.length == 0) := by
  unfold inferStatusForSubmission manualStatusFromParentReactions
  simp [h]

/-- C1 witness: a parent carrying `no_entry_sign` closes the thread even
though a reply carries the EXPLICIT tag. -/
theorem c1_closed_parent_is_terminal_witness :
    inferStatusForSubmission ⟨false, 7, 5⟩
      ⟨0, "submission", [⟨some "thumbsup"⟩, ⟨some "no_entry_sign"⟩]⟩
      [⟨4, "looks great", [⟨some "white_check_mark"⟩]⟩] =
      (StatusCategory.closed, some ":no_entry_sign:", 0, false) :=
  c1_closed_parent_is_terminal ⟨false, 7, 5⟩
    ⟨0, "submission", [⟨some "thumbsup"⟩, ⟨some "no_entry_sign"⟩]⟩
    [⟨4, "looks great", [⟨some "white_check_mark"⟩]⟩] "no_entry_sign" (by decide)

/-- C7: when the reasoning backend raises or its output cannot be parsed,
the generative path returns exactly the deterministic keyword strategy's
result on the same five evidence inputs, and (whenever the deterministic
strategy itself completes, i.e. the first-name computation does not raise)
it returns a value rather than propagating the failure. -/
theorem c7_backend_failure_falls_back (fromiso : String → Option PyDateTime)
    (backendResponse : Except String String)
    (parseJson : String → Option ParsedSynthesis)
    (n : String) (a : Option AshbyRecord) (sl : List SlackThreadMsg)
    (em : List EmailSignal) (cal : List CalendarEvent)
    (hfail : ∀ raw, backendResponse = Except.ok raw → parseJson (stripFences raw) = none) :
    synthesizeWithClaude fromiso backendResponse parseJson n a sl em cal =
      synthesizeWithKeywords fromiso n a sl em cal ∧
    (∀ fn, firstNameOf n = some fn →
      ∃ s, synthesizeWithClaude fromiso backendResponse parseJson n a sl em cal = some s) := by
  have heq : synthesizeWithClaude fromiso backendResponse parseJson n a sl em cal =
      synthesizeWithKeywords fromiso n a sl em cal := by
    cases backendResponse with
    | error e => rfl
    | ok raw =>
      unfold synthesizeWithClaude
      simp only [hfail raw rfl]
  refine ⟨heq, fun fn hn => ?_⟩
  rw [heq]
  exact keywords_returns_some fromiso n a sl em cal fn hn

/-- C7 witness: a backend error on a concrete input falls back to the
keyword result and still returns a synthesis. -/
theorem c7_backend_failure_falls_back_witness :
    (synthesizeWithClaude (fun _ => none) (Except.error "timeout") (fun _ => none)
        "Jane Doe" none [] [] [] =
      synthesizeWithKeywords (fun _ => none) "Jane Doe" none [] [] []) ∧
    (∀ fn, firstNameOf "Jane Doe" = some fn →
      ∃ s, synthesizeWithClaude (fun _ => none) (Except.error "timeout") (fun _ => none)
        "Jane Doe" none [] [] [] = some s) :=
  c7_backend_failure_falls_back (fun _ => none) (Except.error "timeout") (fun _ => none)
    "Jane Doe" none [] [] [] (fun _ h => nomatch h)

/-- C9: with a tracking record present whose pipeline-stage string (through
both `pipeline_stage` and `currentStage`, with Python falsy chaining) is
missing or empty, and no calendar, actionable-email, or kept-chat-reply
evidence, the synthesizer falls through to the no-signal result: source NONE,
the no-signal one-liner, confidence LOW. -/
theorem c9_empty_stage_falls_to_none (fromiso : String → Option PyDateTime)
    (n fn : String) (record : AshbyRecord) (sl : List SlackThreadMsg)
    (em : List EmailSignal)
    (hn : firstNameOf n = some fn)
    (hem : em.filter emailActionable = [])
    (hsl : (sl.filter isKeptReply).getLast? = none)
    (hstage : (truthyStr record.pipeline_stage).getD
      ((truthyStr record.currentStage).getD "") = "") :
    synthesizeWithKeywords fromiso n (some record) sl em [] =
      some { candidate_name := n, status_source := SOURCE_NONE,
             one_liner := "any update on where things stand here?",
             confidence := CONFIDENCE_LOW, flag_for_review := false,
             supporting_context := "No recent signal from any source." } := by
  unfold synthesizeWithKeywords
  rw [hn]
  simp only [hem, hsl, hstage]
  simp

/-- C9 witness: a record carrying only empty/missing stage fields yields the
no-signal synthesis. -/
theorem c9_empty_stage_falls_to_none_witness :
    synthesizeWithKeywords (fun _ => none) "Jane Doe" (some ⟨some "", none, some 4, none⟩)
      [⟨some "intro", some true, none⟩] [⟨"m", "s", "x", ⟨0, 1, 1⟩, "hello", "other"⟩] [] =
      some { candidate_name := "Jane Doe", status_source := SOURCE_NONE,
             one_liner := "any update on where things stand here?",
             confidence := CONFIDENCE_LOW, flag_for_review := false,
             supporting_context := "No recent signal from any source." } :=
  c9_empty_stage_falls_to_none (fun _ => none) "Jane Doe" "Jane" ⟨some "", none, some 4, none⟩
    [⟨some "intro", some true, none⟩] [⟨"m", "s", "x", ⟨0, 1, 1⟩, "hello", "other"⟩]
    (by decide) (by decide) (by decide) (by decide)

/-- C10: in the chat branch, a falsy or unparseable reply timestamp never
aborts the call — the synthesizer still returns, and the one-liner is built
with an empty `date_str`, i.e. without the "as of" suffix. -/
theorem c10_bad_timestamp_omits_date (fromiso : String → Option PyDateTime)
    (n fn : String) (a : Option AshbyRecord) (sl : List SlackThreadMsg)
    (em : List EmailSignal) (latest : SlackThreadMsg)
    (hn : firstNameOf n = some fn)
    (hem : em.filter emailActionable = [])
    (hlast : (sl.filter isKeptReply).getLast? = some latest)
    (hbad : latest.getTimestamp = "" ∨ fromiso latest.getTimestamp = none) :
    ∃ s, synthesizeWithKeywords fromiso n a sl em [] = some s ∧
      s.one_liner = chatOneLiner fn
        (pyLower (String.intercalate " " (sl.map SlackThreadMsg.getText))) "" := by
  have hds : dateStrOfReply fromiso latest.getTimestamp = "" :=
    dateStrOfReply_eq_empty fromiso latest.getTimestamp hbad
  unfold synthesizeWithKeywords
  rw [hn]
  simp only [hem, hlast, hds]
  exact ⟨_, rfl, rfl⟩

/-- C10 witness: a non-ISO timestamp on the latest kept reply produces the
suffix-free chat one-liner. -/
theorem c10_bad_timestamp_omits_date_witness :
    ∃ s, synthesizeWithKeywords (fun _ => none) "Jane Doe" none
        [⟨some "intro", some true, none⟩,
         ⟨some "tech screen done", some false, some "not-a-date"⟩] [] [] = some s ∧
      s.one_liner = chatOneLiner "Jane"
        (pyLower (String.intercalate " "
          ([⟨some "intro", some true, none⟩,
            ⟨some "tech screen done", some false, some "not-a-date"⟩].map
              SlackThreadMsg.getText))) "" :=
  c10_bad_timestamp_omits_date (fun _ => none) "Jane Doe" "Jane" none
    [⟨some "intro", some true, none⟩, ⟨some "tech screen done", some false, some "not-a-date"⟩]
    [] ⟨some "tech screen done", some false, some "not-a-date"⟩
    (by decide) (by decide) (by decide) (Or.inr rfl)

/-- C3 counterexample: an OTHER-type email whose snippet contains the
soft-pass phrase "over budget", with no other evidence, reaches the
no-signal branch, which returns `flag_for_review = false` even though the
available text contains a soft-pass phrase. -/
theorem c3_counterexample :
    containsSoftPass
      (([⟨"m1", "s", "x", ⟨0, 1, 1⟩, "over budget", "other"⟩] : List EmailSignal).map
          EmailSignal.snippet ++
        ([] : List SlackThreadMsg).map SlackThreadMsg.getText) = true ∧
    synthesizeWithKeywords (fun _ => none) "A" none []
      [⟨"m1", "s", "x", ⟨0, 1, 1⟩, "over budget", "other"⟩] [] =
      some ⟨"A", SOURCE_NONE, "any update on where things stand here?", CONFIDENCE_LOW, false,
        "No recent signal from any source."⟩ := by
  decide

/-- C3 (amended): `flag_for_review` is computed branch-locally.  The
calendar branch and a non-REJECTION email branch set it to exactly whether a
soft-pass phrase occurs in the email snippets plus chat text; the chat
branch sets it to exactly whether one occurs in the chat text alone (email
snippets are not scanned there); a selected REJECTION email always sets it
true; the tracking-record and no-signal branches always set it false. -/
theorem c3_amended_soft_pass_is_branch_local (fromiso : String → Option PyDateTime)
    (n : String) (a : Option AshbyRecord) (sl : List SlackThreadMsg)
    (em : List EmailSignal) (cal : List CalendarEvent) (s : StatusSynthesis)
    (hres : synthesizeWithKeywords fromiso n a sl em cal = some s) :
    (∀ e cal', cal = e :: cal' →
      s.flag_for_review =
        containsSoftPass (em.map EmailSignal.snippet ++ sl.map SlackThreadMsg.getText)) ∧
    (∀ top rest, cal = [] → em.filter emailActionable = top :: rest →
      (top.signal_type = SIGNAL_REJECTION → s.flag_for_review = true) ∧
      (top.signal_type ≠ SIGNAL_REJECTION →
        s.flag_for_review =
          containsSoftPass (em.map EmailSignal.snippet ++ sl.map SlackThreadMsg.getText))) ∧
    (∀ latest, cal = [] → em.filter emailActionable = [] →
      (sl.filter isKeptReply).getLast? = some latest →
      s.flag_for_review = containsSoftPass (sl.map SlackThreadMsg.getText)) ∧
    (cal = [] → em.filter emailActionable = [] →
      (sl.filter isKeptReply).getLast? = none →
      s.flag_for_review = false) := by
  unfold synthesizeWithKeywords at hres
  cases hn : firstNameOf n with
  | none => rw [hn] at hres; exact Option.noConfusion hres
  | some fn =>
  rw [hn] at hres
  cases cal with
  | cons e cal' =>
    simp only [Option.some.injEq] at hres
    subst hres
    refine ⟨fun _ _ _ => rfl, ?_, ?_, ?_⟩
    · intro _ _ hcal _
      cases hcal
    · intro _ hcal _ _
      cases hcal
    · intro hcal _ _
      cases hcal
  | nil =>
  rcases hfe : em.filter emailActionable with _ | ⟨top, rest⟩
  · rw [hfe] at hres
    simp only [] at hres
    rcases hlast : (sl.filter isKeptReply).getLast? with _ | latest
    · rw [hlast] at hres
      have hflag : s.flag_for_review = false := by
        cases a with
        | some record =>
          simp only [] at hres
          by_cases hst : (truthyStr record.pipeline_stage).getD
              ((truthyStr record.currentStage).getD "") ≠ ""
          · rw [if_pos hst] at hres
            simp only [Option.some.injEq] at hres
            subst hres
            rfl
          · rw [if_neg hst] at hres
            simp only [Option.some.injEq] at hres
            subst hres
            rfl
        | none =>
          simp only [Option.some.injEq] at hres
          subst hres
          rfl
      refine ⟨?_, ?_, ?_, fun _ _ _ => hflag⟩
      · intro _ _ hcal
        cases hcal
      · intro _ _ _ hfe'
        cases hfe'
      · intro _ _ _ hlast'
        cases hlast'
    · rw [hlast] at hres
      simp only [Option.some.injEq] at hres
      subst hres
      refine ⟨?_, ?_, fun _ _ _ _ => rfl, ?_⟩
      · intro _ _ hcal
        cases hcal
      · intro _ _ _ hfe'
        cases hfe'
      · intro _ _ hlast'
        cases hlast'
  · rw [hfe] at hres
    simp only [] at hres
    split at hres
    · -- REJECTION email
      rename_i hrej
      simp only [Option.some.injEq] at hres
      subst hres
      refine ⟨?_, ?_, ?_, ?_⟩
      · intro _ _ hcal
        cases hcal
      · intro top' rest' _ hfe'
        have htop : top = top' := (List.cons.injEq _ _ _ _ ▸ hfe').1
        refine ⟨fun _ => rfl, fun hne => ?_⟩
        exact absurd (htop ▸ eq_of_beq hrej) hne
      · intro _ _ hfe' _
        cases hfe'
      · intro _ hfe' _
        cases hfe'
    · rename_i hnrej
      split at hres
      · -- SCHEDULING email
        simp only [Option.some.injEq] at hres
        subst hres
        refine ⟨?_, ?_, ?_, ?_⟩
        · intro _ _ hcal
          cases hcal
        · intro top' rest' _ hfe'
          have htop : top = top' := (List.cons.injEq _ _ _ _ ▸ hfe').1
          refine ⟨fun hrej' => ?_, fun _ => rfl⟩
          rw [← htop] at hrej'
          simp [hrej'] at hnrej
        · intro _ _ hfe' _
          cases hfe'
        · intro _ hfe' _
          cases hfe'
      · -- ADVANCEMENT email
        simp only [Option.some.injEq] at hres
        subst hres
        refine ⟨?_, ?_, ?_, ?_⟩
        · intro _ _ hcal
          cases hcal
        · intro top' rest' _ hfe'
          have htop : top = top' := (List.cons.injEq _ _ _ _ ▸ hfe').1
          refine ⟨fun hrej' => ?_, fun _ => rfl⟩
          rw [← htop] at hrej'
          simp [hrej'] at hnrej
        · intro _ _ hfe' _
          cases hfe'
        · intro _ hfe' _
          cases hfe'

/-- C3 witness: in the chat branch the flag equals the chat-text scan alone —
here an OTHER-type email snippet contains the soft-pass phrase "over budget",
yet the flag equals the (soft-pass-free) chat-text scan. -/
theorem c3_amended_soft_pass_witness :
    (⟨"A", SOURCE_SLACK, "last activity — any update on where things stand?",
      CONFIDENCE_MEDIUM, false, "all good"⟩ : StatusSynthesis).flag_for_review =
      containsSoftPass (([⟨some "all good", some false, none⟩] : List SlackThreadMsg).map
        SlackThreadMsg.getText) :=
  (c3_amended_soft_pass_is_branch_local (fun _ => none) "A" none
    [⟨some "all good", some false, none⟩]
    [⟨"m1", "s", "x", ⟨0, 1, 1⟩, "over budget", "other"⟩] []
    ⟨"A", SOURCE_SLACK, "last activity — any update on where things stand?",
      CONFIDENCE_MEDIUM, false, "all good"⟩ (by decide)).2.2.1
    ⟨some "all good", some false, none⟩ rfl (by decide) (by decide)

/-- C8 counterexample: with a CLOSED tag on the parent and a later reply at
t = 9, classify returns last-activity = 0 (the parent timestamp), while the
maximum of the parent timestamp and the kept replies' timestamps is 9 — so
the claimed equality fails on CLOSED threads. -/
theorem c8_counterexample :
    (inferStatusForSubmission ⟨false, 7, 5⟩ ⟨0, "s", [⟨some "no_entry"⟩]⟩
      [⟨9, "r", []⟩]).2.2.1 = 0 ∧
    (([⟨9, "r", []⟩] : List SlackMessage).filter
      (fun m => decide ((0 : Int) < m.ts))).foldl (fun acc m => max acc m.ts) 0 = 9 := by
  decide

/-- C8 (amended): replies at or before the parent timestamp are silently
discarded — classify on the full reply list equals classify on the filtered
list — and, whenever the parent does not carry a CLOSED tag, the returned
last-activity time is the maximum of the parent timestamp and the kept
replies' timestamps (on a CLOSED parent it is the parent timestamp itself,
as in C1). -/
theorem c8_amended_discards_early_replies (cfg : Config) (sub : SlackMessage)
    (replies : List SlackMessage) :
    inferStatusForSubmission cfg sub replies =
      inferStatusForSubmission cfg sub
        (replies.filter (fun m => decide (sub.ts < m.ts))) ∧
    ((sub.reactions.filterMap Reaction.truthyName).find? isClosedTagName = none →
      (inferStatusForSubmission cfg sub replies).2.2.1 =
        (replies.filter (fun m => decide (sub.ts < m.ts))).foldl
          (fun acc m => max acc m.ts) sub.ts) := by
  have hk : (replies.filter (fun m => decide (sub.ts < m.ts))).filter
      (fun m => decide (sub.ts < m.ts)) =
      replies.filter (fun m => decide (sub.ts < m.ts)) := by
    rw [List.filter_filter]
    exact List.filter_congr (fun x _ => Bool.and_self _)
  constructor
  · simp only [inferStatusForSubmission]
    rw [hk]
  · intro hfind
    simp only [inferStatusForSubmission, manualStatusFromParentReactions, hfind]
    cases hw : (sub.reactions.filterMap Reaction.truthyName).find?
        (fun n => n == "white_check_mark") with
    | none => simp
    | some name => simp

/-- C8 witness: on a thread without a CLOSED parent tag, the last-activity
component is the max over the kept replies. -/
theorem c8_amended_discards_early_replies_witness :
    (inferStatusForSubmission ⟨false, 7, 5⟩ ⟨3, "s", [⟨some "eyes"⟩]⟩
      [⟨9, "r", []⟩, ⟨1, "old", []⟩]).2.2.1 =
      (([⟨9, "r", []⟩, ⟨1, "old", []⟩] : List SlackMessage).filter
        (fun m => decide ((3 : Int) < m.ts))).foldl (fun acc m => max acc m.ts) 3 :=
  (c8_amended_discards_early_replies ⟨false, 7, 5⟩ ⟨3, "s", [⟨some "eyes"⟩]⟩
    [⟨9, "r", []⟩, ⟨1, "old", []⟩]).2 (by decide)

/-! ### Lemmas about the classifier sweep -/

/-- `_classify_from_emojis` fires only on `white_check_mark`, and only with
status IN_PROCESS_EXPLICIT. -/
theorem classifyFromEmojis_wcm (b : Bool) (rs : List Reaction)
    (p : StatusCategory × String) (h : classifyFromEmojis b rs = some p) :
    p.1 = StatusCategory.inProcessExplicit ∧
      "white_check_mark" ∈ rs.filterMap Reaction.truthyName := by
  induction rs with
  | nil => simp [classifyFromEmojis] at h
  | cons r rest ih =>
    rw [classifyFromEmojis] at h
    cases ht : r.truthyName with
    | none =>
      rw [ht] at h
      simp only [] at h
      obtain ⟨h1, h2⟩ := ih h
      exact ⟨h1, by simp only [List.filterMap_cons, ht]; exact h2⟩
    | some name =>
      rw [ht] at h
      simp only [] at h
      by_cases hn : (name == "white_check_mark") = true
      · rw [if_pos hn] at h
        obtain rfl := Option.some_inj.mp h
        refine ⟨rfl, ?_⟩
        simp only [List.filterMap_cons, ht]
        rw [eq_of_beq hn]
        exact List.mem_cons_self _ _
      · rw [if_neg hn] at h
        obtain ⟨h1, h2⟩ := ih h
        exact ⟨h1, by simp only [List.filterMap_cons, ht]; exact List.mem_cons_of_mem _ h2⟩

/-- One sweep step cannot introduce CLOSED. -/
theorem sweepStep_closed (b : Bool) (st : StatusCategory × Option String)
    (ev : ClassifierEvent) (h : (sweepStep b st ev).1 = StatusCategory.closed) :
    st.1 = StatusCategory.closed := by
  unfold sweepStep at h
  by_cases hc : st.1 = StatusCategory.closed
  · exact hc
  · rw [if_pos hc] at h
    cases he : classifyFromEmojis b ev.2.1 with
    | none => rw [he] at h; simp only [] at h; exact h
    | some er =>
      rw [he] at h
      simp only [] at h
      by_cases hex : er.1 = StatusCategory.inProcessExplicit
      · rw [if_pos hex] at h
        exact nomatch hex.symm.trans h
      · rw [if_neg hex] at h
        exact h

/-- The whole sweep cannot introduce CLOSED. -/
theorem foldl_sweep_closed (b : Bool) (events : List ClassifierEvent)
    (init : StatusCategory × Option String)
    (h : (events.foldl (sweepStep b) init).1 = StatusCategory.closed) :
    init.1 = StatusCategory.closed := by
  induction events generalizing init with
  | nil => simpa using h
  | cons ev rest ih => exact sweepStep_closed b init ev (ih _ (by simpa using h))

/-- If the sweep ends EXPLICIT, either it started EXPLICIT or some event
carries `white_check_mark`. -/
theorem foldl_sweep_explicit (b : Bool) (events : List ClassifierEvent)
    (init : StatusCategory × Option String)
    (h : (events.foldl (sweepStep b) init).1 = StatusCategory.inProcessExplicit) :
    init.1 = StatusCategory.inProcessExplicit ∨
      ∃ ev ∈ events, "white_check_mark" ∈ ev.2.1.filterMap Reaction.truthyName := by
  induction events generalizing init with
  | nil => exact Or.inl (by simpa using h)
  | cons ev rest ih =>
    rcases ih (sweepStep b init ev) (by simpa using h) with h2 | ⟨ev', hmem, hw⟩
    · unfold sweepStep at h2
      by_cases hc : init.1 = StatusCategory.closed
      · rw [if_neg (not_not_intro hc)] at h2
        exact nomatch hc.symm.trans h2
      · rw [if_pos hc] at h2
        cases he : classifyFromEmojis b ev.2.1 with
        | none => rw [he] at h2; simp only [] at h2; exact Or.inl h2
        | some er =>
          rw [he] at h2
          simp only [] at h2
          by_cases hex : er.1 = StatusCategory.inProcessExplicit
          · exact Or.inr ⟨ev, List.mem_cons_self _ _, (classifyFromEmojis_wcm b _ er he).2⟩
          · rw [if_neg hex] at h2
            exact Or.inl h2
    · exact Or.inr ⟨ev', List.mem_cons_of_mem _ hmem, hw⟩

/-- Replacing an event's text component (as the classifier never reads it). -/
def setEvText (t : String) (ev : ClassifierEvent) : ClassifierEvent :=
  (ev.1, ev.2.1, t)

theorem setEvText_fst (t : String) (ev : ClassifierEvent) : (setEvText t ev).1 = ev.1 := rfl

theorem orderedInsert_setEvText (t : String) (a : ClassifierEvent)
    (l : List ClassifierEvent) :
    List.orderedInsert (fun x y : ClassifierEvent => x.1 ≤ y.1) (setEvText t a)
      (l.map (setEvText t)) =
    (List.orderedInsert (fun x y : ClassifierEvent => x.1 ≤ y.1) a l).map (setEvText t) := by
  induction l with
  | nil => rfl
  | cons b bs ih =>
    simp only [List.map_cons, List.orderedInsert, setEvText_fst]
    by_cases h : a.1 ≤ b.1
    · rw [if_pos h, if_pos h, List.map_cons, List.map_cons]
    · rw [if_neg h, if_neg h, List.map_cons, ih]

theorem insertionSort_setEvText (t : String) (l : List ClassifierEvent) :
    List.insertionSort (fun x y : ClassifierEvent => x.1 ≤ y.1) (l.map (setEvText t)) =
    (List.insertionSort (fun x y : ClassifierEvent => x.1 ≤ y.1) l).map (setEvText t) := by
  induction l with
  | nil => rfl
  | cons a l ih => simp only [List.map_cons, List.insertionSort, ih, orderedInsert_setEvText]

/-- Sorting and sweeping the event list ignores the text components. -/
theorem sort_fold_text_invariant (b : Bool) (t s0 : String)
    (init : StatusCategory × Option String) (ts0 : Int) (rx0 : List Reaction)
    (l : List ClassifierEvent) :
    (List.insertionSort (fun x y : ClassifierEvent => x.1 ≤ y.1)
        ((ts0, rx0, t) :: l.map (setEvText t))).foldl (sweepStep b) init =
    (List.insertionSort (fun x y : ClassifierEvent => x.1 ≤ y.1)
        ((ts0, rx0, s0) :: l)).foldl (sweepStep b) init := by
  have h1 : ((ts0, rx0, t) :: l.map (setEvText t)) =
      ((ts0, rx0, s0) :: l).map (setEvText t) := rfl
  rw [h1, insertionSort_setEvText, List.foldl_map]
  rfl

/-- C4: the classifier's result can be CLOSED only when the parent carries a
CLOSED tag; it can be IN_PROCESS_EXPLICIT only when the parent or a kept
reply carries `white_check_mark`; and the free text of the parent and the
replies never affects the result at all. -/
theorem c4_only_authoritative_tags (cfg : Config) (sub : SlackMessage)
    (replies : List SlackMessage) :
    ((inferStatusForSubmission cfg sub replies).1 = StatusCategory.closed →
      ∃ nm ∈ sub.reactions.filterMap Reaction.truthyName, isClosedTagName nm = true) ∧
    ((inferStatusForSubmission cfg sub replies).1 = StatusCategory.inProcessExplicit →
      "white_check_mark" ∈ sub.reactions.filterMap Reaction.truthyName ∨
        ∃ m ∈ replies, sub.ts < m.ts ∧
          "white_check_mark" ∈ m.reactions.filterMap Reaction.truthyName) ∧
    (∀ t : String, inferStatusForSubmission cfg ⟨sub.ts, t, sub.reactions⟩
        (replies.map (fun m => ⟨m.ts, t, m.reactions⟩)) =
      inferStatusForSubmission cfg sub replies) := by
  refine ⟨?_, ?_, ?_⟩
  · intro h
    cases hfc : (sub.reactions.filterMap Reaction.truthyName).find? isClosedTagName with
    | some nm => exact ⟨nm, List.mem_of_find?_eq_some hfc, List.find?_some hfc⟩
    | none =>
      exfalso
      simp only [inferStatusForSubmission, manualStatusFromParentReactions, hfc] at h
      cases hw : (sub.reactions.filterMap Reaction.truthyName).find?
          (fun n => n == "white_check_mark") with
      | some nm =>
        simp only [hw] at h
        rw [if_neg (by simp)] at h
        simp only [] at h
        exact nomatch foldl_sweep_closed _ _ _ h
      | none =>
        simp only [hw] at h
        rw [if_neg (by simp)] at h
        simp only [] at h
        exact nomatch foldl_sweep_closed _ _ _ h
  · intro h
    cases hfc : (sub.reactions.filterMap Reaction.truthyName).find? isClosedTagName with
    | some nm =>
      exfalso
      simp only [inferStatusForSubmission, manualStatusFromParentReactions, hfc] at h
      rw [if_pos ⟨trivial, trivial⟩] at h
      simp only [] at h
      exact nomatch h
    | none =>
      simp only [inferStatusForSubmission, manualStatusFromParentReactions, hfc] at h
      cases hw : (sub.reactions.filterMap Reaction.truthyName).find?
          (fun n => n == "white_check_mark") with
      | some nm =>
        left
        have hmem := List.mem_of_find?_eq_some hw
        have hbeq := List.find?_some hw
        rw [← eq_of_beq hbeq]
        exact hmem
      | none =>
        simp only [hw] at h
        rw [if_neg (by simp)] at h
        simp only [] at h
        rcases foldl_sweep_explicit _ _ _ h with h1 | ⟨ev, hmem, hwcm⟩
        · exact nomatch h1
        · have hev : ev ∈ ((sub.ts, sub.reactions, sub.text) ::
              (replies.filter (fun msg => decide (sub.ts < msg.ts))).map
                (fun msg => (msg.ts, msg.reactions, msg.text))) :=
            (List.perm_insertionSort _ _).mem_iff.mp hmem
          rcases List.mem_cons.mp hev with heq | hm
          · left
            rw [heq] at hwcm
            exact hwcm
          · right
            obtain ⟨msg, hmsg, hevq⟩ := List.mem_map.mp hm
            have hf := List.mem_filter.mp hmsg
            refine ⟨msg, hf.1, of_decide_eq_true hf.2, ?_⟩
            rw [← hevq] at hwcm
            exact hwcm
  · intro t
    have hkept : (replies.map (fun m : SlackMessage =>
          (⟨m.ts, t, m.reactions⟩ : SlackMessage))).filter
        (fun msg => decide (sub.ts < msg.ts)) =
        (replies.filter (fun msg => decide (sub.ts < msg.ts))).map
          (fun m => (⟨m.ts, t, m.reactions⟩ : SlackMessage)) := by
      rw [List.filter_map]
      rfl
    have hconv : ((replies.filter (fun msg => decide (sub.ts < msg.ts))).map
          (fun m : SlackMessage => (⟨m.ts, t, m.reactions⟩ : SlackMessage))).map
        (fun msg => ((msg.ts, msg.reactions, msg.text) : ClassifierEvent)) =
        ((replies.filter (fun msg => decide (sub.ts < msg.ts))).map
          (fun msg => ((msg.ts, msg.reactions, msg.text) : ClassifierEvent))).map
          (setEvText t) := by
      rw [List.map_map, List.map_map]
      rfl
    simp only [inferStatusForSubmission]
    by_cases hC : (manualStatusFromParentReactions cfg sub.reactions).1 =
        some StatusCategory.closed ∧
        (manualStatusFromParentReactions cfg sub.reactions).2.2 = true
    · rw [if_pos hC, if_pos hC]
    · rw [if_neg hC, if_neg hC, hkept, hconv,
        sort_fold_text_invariant cfg.include_confused_close t sub.text,
        List.foldl_map]

/-- C4 witness: a concrete CLOSED result exhibits its parent CLOSED tag. -/
theorem c4_only_authoritative_tags_witness :
    ∃ nm ∈ ([⟨some "no_entry"⟩] : List Reaction).filterMap Reaction.truthyName,
      isClosedTagName nm = true :=
  (c4_only_authoritative_tags ⟨false, 7, 5⟩ ⟨0, "s", [⟨some "no_entry"⟩]⟩
    [⟨2, "r", [⟨some "thumbsup"⟩]⟩]).1 (by decide)

/-- Unpacking the lexicographic event-key comparison. -/
theorem eventKeyLe_cases (x y : CalendarEvent) (h : eventKeyLe x y) :
    (x.is_upcoming = true → y.is_upcoming = true →
      x.start_time.ts ≤ y.start_time.ts) ∧
    (x.is_upcoming = false → y.is_upcoming = true → False) ∧
    (x.is_upcoming = false → y.is_upcoming = false →
      y.start_time.ts ≤ x.start_time.ts) := by
  unfold eventKeyLe eventSortKey at h
  refine ⟨fun hx hy => ?_, fun hx hy => ?_, fun hx hy => ?_⟩
  · simp [hx, hy] at h
    omega
  · simp [hx, hy] at h
  · simp [hx, hy] at h
    omega

/-- C2: on a non-empty calendar list ordered as `search_events` orders it,
the calendar branch always fires — source CALENDAR, confidence HIGH,
whatever email/chat/tracking evidence exists — and the chosen event is the
soonest upcoming event when any event is upcoming, else the most recent past
event; an upcoming event gives the optimistic dated phrasing, a past event
the open question about the outcome. -/
theorem c2_calendar_branch_wins (fromiso : String → Option PyDateTime)
    (n fn : String) (a : Option AshbyRecord) (sl : List SlackThreadMsg)
    (em : List EmailSignal) (l : List CalendarEvent)
    (hl : l ≠ []) (hn : firstNameOf n = some fn) :
    ∃ e es, sortCalendarEvents l = e :: es ∧ e ∈ l ∧
      ((∃ u ∈ l, u.is_upcoming = true) →
        e.is_upcoming = true ∧
          ∀ u ∈ l, u.is_upcoming = true → e.start_time.ts ≤ u.start_time.ts) ∧
      ((∀ u ∈ l, u.is_upcoming = false) →
        e.is_upcoming = false ∧ ∀ u ∈ l, u.start_time.ts ≤ e.start_time.ts) ∧
      synthesizeWithKeywords fromiso n a sl em (sortCalendarEvents l) =
        some { candidate_name := n, status_source := SOURCE_CALENDAR,
               one_liner :=
                 if e.is_upcoming then
                   extractStageFromEvent e.summary ++ " is set for " ++
                     formatEventDate e.start_time ++ " — excited to see how it goes!"
                 else
                   "had the " ++ extractStageFromEvent e.summary ++ " on " ++
                     formatEventDate e.start_time ++ " — any feedback on how it went?",
               confidence := CONFIDENCE_HIGH,
               flag_for_review := containsSoftPass
                 (em.map EmailSignal.snippet ++ sl.map SlackThreadMsg.getText),
               supporting_context := e.summary } := by
  have hperm := List.perm_insertionSort eventKeyLe l
  have hsorted := List.sorted_insertionSort eventKeyLe l
  cases hs : sortCalendarEvents l with
  | nil =>
    exfalso
    apply hl
    have : List.insertionSort eventKeyLe l = [] := hs
    rw [this] at hperm
    exact hperm.symm.eq_nil
  | cons e es =>
    have hs' : List.insertionSort eventKeyLe l = e :: es := hs
    rw [hs'] at hperm hsorted
    have he_mem : e ∈ l := hperm.mem_iff.mp (List.mem_cons_self e es)
    have hhead : ∀ y ∈ es, eventKeyLe e y := (List.sorted_cons.mp hsorted).1
    have hle : ∀ u, u ∈ l → u = e ∨ eventKeyLe e u := by
      intro u hu
      rcases List.mem_cons.mp (hperm.mem_iff.mpr hu) with h | h
      · exact Or.inl h
      · exact Or.inr (hhead u h)
    refine ⟨e, es, rfl, he_mem, ?_, ?_, ?_⟩
    · rintro ⟨u, hu_mem, hu_up⟩
      have heup : e.is_upcoming = true := by
        by_contra hne
        have hne' : e.is_upcoming = false := Bool.eq_false_iff.mpr hne
        rcases hle u hu_mem with rfl | hke
        · rw [hu_up] at hne'
          exact Bool.noConfusion hne'
        · exact (eventKeyLe_cases e u hke).2.1 hne' hu_up
      refine ⟨heup, fun v hv hv_up => ?_⟩
      rcases hle v hv with rfl | hke
      · exact le_refl _
      · exact (eventKeyLe_cases e v hke).1 heup hv_up
    · intro hall
      refine ⟨hall e he_mem, fun v hv => ?_⟩
      rcases hle v hv with rfl | hke
      · exact le_refl _
      · exact (eventKeyLe_cases e v hke).2.2 (hall e he_mem) (hall v hv)
    · unfold synthesizeWithKeywords
      rw [hn]

/-- Concrete event list for the C2 witness: one past and one upcoming
event. -/
def c2WitnessEvents : List CalendarEvent :=
  [⟨"p", "Jane x Acme onsite", ⟨50, 1, 1⟩, ⟨51, 1, 1⟩, false⟩,
   ⟨"u", "Jane x Acme phone", ⟨80, 2, 2⟩, ⟨81, 2, 2⟩, true⟩]

/-- C2 witness: with one past and one upcoming event, the upcoming one is
picked and phrased optimistically with HIGH confidence. -/
theorem c2_calendar_branch_wins_witness :
    ∃ e es, sortCalendarEvents c2WitnessEvents = e :: es ∧ e ∈ c2WitnessEvents ∧
      ((∃ u ∈ c2WitnessEvents, u.is_upcoming = true) →
        e.is_upcoming = true ∧
          ∀ u ∈ c2WitnessEvents, u.is_upcoming = true →
            e.start_time.ts ≤ u.start_time.ts) ∧
      ((∀ u ∈ c2WitnessEvents, u.is_upcoming = false) →
        e.is_upcoming = false ∧
          ∀ u ∈ c2WitnessEvents, u.start_time.ts ≤ e.start_time.ts) ∧
      synthesizeWithKeywords (fun _ => none) "Jane Doe" none [] []
          (sortCalendarEvents c2WitnessEvents) =
        some { candidate_name := "Jane Doe", status_source := SOURCE_CALENDAR,
               one_liner :=
                 if e.is_upcoming then
                   extractStageFromEvent e.summary ++ " is set for " ++
                     formatEventDate e.start_time ++ " — excited to see how it goes!"
                 else
                   "had the " ++ extractStageFromEvent e.summary ++ " on " ++
                     formatEventDate e.start_time ++ " — any feedback on how it went?",
               confidence := CONFIDENCE_HIGH,
               flag_for_review := containsSoftPass
                 (([] : List EmailSignal).map EmailSignal.snippet ++
                   ([] : List SlackThreadMsg).map SlackThreadMsg.getText),
               supporting_context := e.summary } :=
  c2_calendar_branch_wins (fun _ => none) "Jane Doe" "Jane" none [] []
    c2WitnessEvents (by decide) (by decide)

end WeeklySlackRecon
